import Mathlib

/-!
Shallow embedding of the UniversalDeepLearning repository
(src/GraphBuilder.py and src/models.py), together with proofs of the
specification claims about its dynamic graph-construction step.

Modelling conventions:
* Python floats are idealised as rationals (`ℚ`).  A batch of feature
  vectors is a `List (List ℚ)` (rows are samples).
* A distance value may be infinite (`np.inf` is tested for explicitly in
  `score_function`), so distance functions return `PyFloat`.
* The final normalisation step of `compute_edges_matrices` divides by the
  maximum of the thresholded score matrix, which can be `0`; numpy then
  produces `nan` (for `0/0`) or `±inf` (for `x/0`), all of which count as
  nonzero entries for the dense-to-sparse conversion.  The type `NpVal`
  captures exactly the values that can appear after that division.
* Python exceptions are modelled with `Except PyErr`.
-/

/-- Result of a scipy distance computation: a finite float or `np.inf`. -/
inductive PyFloat where
  | fin (q : ℚ)
  | inf
deriving DecidableEq

/-- Nonnegativity predicate for distance values (`np.inf` counts as nonnegative). -/
def PyFloat.Nonneg : PyFloat → Prop
  | PyFloat.fin q => 0 ≤ q
  | PyFloat.inf => True

/-- Value of a numpy float after the division `scores_matrix/scores_matrix.max()`:
either an ordinary number, or `nan` (from `0/0`), or `±inf` (from `x/0` with `x ≠ 0`). -/
inductive NpVal where
  | num (q : ℚ)
  | nan
  | posInf
  | negInf
deriving DecidableEq

/-- Numpy division of two (finite) floats, recording the IEEE outcomes for a
zero denominator: `0/0 = nan`, `a/0 = ±inf` for `a ≠ 0`. -/
def npDiv (a b : ℚ) : NpVal :=
  if b = 0 then (if a = 0 then NpVal.nan else if 0 < a then NpVal.posInf else NpVal.negInf)
  else NpVal.num (a / b)

/-- Nonzero test used by `torch.nonzero` inside `dense_to_sparse`: `nan` and
`±inf` compare unequal to zero, hence count as nonzero. -/
def NpVal.nonzero : NpVal → Bool
  | NpVal.num q => decide (q ≠ 0)
  | _ => true

/-- Python exceptions raised by the modelled code paths. -/
inductive PyErr where
  | notImplementedError
  | typeError
  | runtimeError
  | keyError
  | attributeError
  | assertionError
deriving DecidableEq

/-- Maximum entry of a nonempty float array, `ndarray.max()`.  On the empty
list we return `0` (numpy would raise; all theorems that use this assume a
nonempty batch). -/
def list_max : List ℚ → ℚ
  | [] => 0
  | x :: xs => xs.foldl max x

/-- Value of numpy `np.quantile(a, q)` with the default linear interpolation:
with `s` the ascending sort of the flattened data and `h = q*(N-1)`, the result
is `s[⌊h⌋] + (h - ⌊h⌋) * (s[⌊h⌋+1] - s[⌊h⌋])` (indices clipped to `N-1`). -/
def np_quantile (l : List ℚ) (q : ℚ) : ℚ :=
  let a := l.insertionSort (· ≤ ·)
  let N := a.length
  let h : ℚ := q * ((N : ℚ) - 1)
  let i : ℕ := (⌊h⌋).toNat
  let lo := a.getD i 0
  let hi := a.getD (min (i + 1) (N - 1)) 0
  lo + (h - (i : ℚ)) * (hi - lo)

/-- Model of `torch.index_select(batch, dim=1, index=params_indeces)`:
keep, in order, the listed columns of every row. -/
def index_select (batch : List (List ℚ)) (idx : List ℕ) : List (List ℚ) :=
  batch.map (fun row => idx.map (fun j => row.getD j 0))

/-- Model of `scipy.spatial.distance.cdist(rows, rows, d)`: the square matrix
of pairwise distances. -/
def cdist (d : List ℚ → List ℚ → PyFloat) (rows : List (List ℚ)) : List (List PyFloat) :=
  rows.map (fun r => rows.map (fun s => d r s))

/-- Model of `torch_geometric.utils.dense_to_sparse` on a 2-dimensional
matrix: the indices of the nonzero entries in row-major order (the transpose of
`adj.nonzero()`), paired with the values gathered at those indices. -/
def dense_to_sparse (M : List (List NpVal)) : List (ℕ × ℕ) × List NpVal :=
  let pairs := (List.range M.length).flatMap
    (fun i => (List.range ((M.getD i []).length)).map (fun j => (i, j)))
  let nz := pairs.filter (fun p => ((M.getD p.1 []).getD p.2 (NpVal.num 0)).nonzero)
  (nz, nz.map (fun p => (M.getD p.1 []).getD p.2 (NpVal.num 0)))

/-- GraphBuilder.py line 6: the `GraphBuilder` class and its constructor
arguments (line 8).  The `device` argument is a no-op in this model. -/
structure GraphBuilder where
  distance_function : List ℚ → List ℚ → PyFloat
  params_indeces : List ℕ
  sparsity : ℚ
  encoder : List (List ℚ) → List (List ℚ)
  edge_level_batch : Bool

/-- GraphBuilder.py lines 36-41: `score_function` maps a distance of `0` or
`np.inf` to `0` and any other distance `x` to `1/x`. -/
def score_function : PyFloat → ℚ
  | PyFloat.inf => 0
  | PyFloat.fin q => if q = 0 then 0 else 1 / q

/-- GraphBuilder.py lines 16-17: `compute_nodes_matrix` applies the encoder. -/
def GraphBuilder.compute_nodes_matrix (gb : GraphBuilder) (batch : List (List ℚ)) :
    List (List ℚ) :=
  gb.encoder batch

/-- Truncation toward zero performed by numpy when a float value is stored
into an int64 array (C-style cast). -/
def int_trunc (q : ℚ) : ℚ :=
  if 0 ≤ q then ((⌊q⌋ : ℤ) : ℚ) else ((⌈q⌉ : ℤ) : ℚ)

/-- First element of the distance matrix of GraphBuilder.py line 23, i.e.
`distance_function(row0, row0)` on the selected columns: the element on which
`np.vectorize` calls `score_function` to infer its output dtype.  The default
used out of range is irrelevant: numpy raises on an empty input, and every
theorem about the pipeline assumes a nonempty batch. -/
def first_distance (gb : GraphBuilder) (batch : List (List ℚ)) : PyFloat :=
  ((cdist gb.distance_function (index_select batch gb.params_indeces)).getD 0 []).getD 0
    PyFloat.inf

/-- Elementwise function actually applied by
`np.vectorize(self.score_function)` at GraphBuilder.py lines 24-25.
`np.vectorize` without `otypes` infers the output dtype from the value of
`score_function` on the first element of the distance matrix: when that first
distance is `0` or `np.inf`, `score_function` returns the Python int `0`, the
output dtype is int64 and every score `1/d` is truncated toward zero when
stored; otherwise the value `1/d` is a float, the dtype is float64 and the
scores are kept exactly. -/
def GraphBuilder.vectorized_score (gb : GraphBuilder) (batch : List (List ℚ)) :
    PyFloat → ℚ :=
  if first_distance gb batch = PyFloat.fin 0 ∨ first_distance gb batch = PyFloat.inf then
    fun x => int_trunc (score_function x)
  else score_function

/-- GraphBuilder.py lines 20-25 (the local `scores_matrix` after
`np.vectorize(self.score_function)`): pairwise distances of the selected
columns, scored elementwise, including the int64 truncation that
`np.vectorize`'s dtype inference applies whenever the first distance is `0` or
infinity (see `GraphBuilder.vectorized_score`). -/
def GraphBuilder.scores_matrix (gb : GraphBuilder) (batch : List (List ℚ)) :
    List (List ℚ) :=
  (cdist gb.distance_function (index_select batch gb.params_indeces)).map
    (List.map (gb.vectorized_score batch))

/-- GraphBuilder.py lines 26-28: `np.quantile(scores_matrix, 1 - sparsity)`
over the flattened score matrix. -/
def GraphBuilder.quantile_value (gb : GraphBuilder) (batch : List (List ℚ)) : ℚ :=
  np_quantile (gb.scores_matrix batch).flatten (1 - gb.sparsity)

/-- GraphBuilder.py line 30: `np.where(scores_matrix > quantile, scores_matrix, 0)`. -/
def GraphBuilder.thresholded (gb : GraphBuilder) (batch : List (List ℚ)) :
    List (List ℚ) :=
  (gb.scores_matrix batch).map
    (List.map (fun s => if gb.quantile_value batch < s then s else 0))

/-- GraphBuilder.py line 31: `scores_matrix/scores_matrix.max()`. -/
def GraphBuilder.normalized (gb : GraphBuilder) (batch : List (List ℚ)) :
    List (List NpVal) :=
  (gb.thresholded batch).map
    (List.map (fun s => npDiv s (list_max (gb.thresholded batch).flatten)))

/-- GraphBuilder.py lines 19-34: `compute_edges_matrices`, returning the sparse
edge index together with the edge weights. -/
def GraphBuilder.compute_edges_matrices (gb : GraphBuilder) (batch : List (List ℚ)) :
    List (ℕ × ℕ) × List NpVal :=
  dense_to_sparse (gb.normalized batch)

/-- GraphBuilder.py lines 43-44: `compute_row_level_batch` unconditionally
raises `NotImplementedError`. -/
def GraphBuilder.compute_row_level_batch (gb : GraphBuilder) (batch : List (List ℚ)) :
    Except PyErr (List (List ℚ)) :=
  Except.error PyErr.notImplementedError

/-- GraphBuilder.py lines 46-51: `compute_graph` (called with its single
`batch` argument).  For edge-level builders the `compute_row_level_batch` call
raises before any node or edge computation. -/
def GraphBuilder.compute_graph (gb : GraphBuilder) (batch : List (List ℚ)) :
    Except PyErr (List (List ℚ) × List (ℕ × ℕ) × List NpVal) :=
  if gb.edge_level_batch then
    match gb.compute_row_level_batch batch with
    | Except.error e => Except.error e
    | Except.ok b =>
        Except.ok (gb.compute_nodes_matrix b, (gb.compute_edges_matrices b).1,
          (gb.compute_edges_matrices b).2)
  else
    Except.ok (gb.compute_nodes_matrix batch, (gb.compute_edges_matrices batch).1,
      (gb.compute_edges_matrices batch).2)

/-- models.py line 283 invokes `compute_graph(x, self.device)` with two
positional arguments, but `compute_graph` (GraphBuilder.py line 46) accepts a
single `batch` parameter besides `self`; in Python such a call raises
`TypeError` before the method body runs. -/
def GraphBuilder.compute_graph_with_device (gb : GraphBuilder) (x : List (List ℚ)) :
    Except PyErr (List (List ℚ) × List (ℕ × ℕ) × List NpVal) :=
  Except.error PyErr.typeError

/-- models.py line 145 invokes `compute_row_level_batch(x, self.device)` with
two positional arguments, but `compute_row_level_batch` (GraphBuilder.py line
43) accepts a single `batch` parameter besides `self`; in Python such a call
raises `TypeError` before the `NotImplementedError` in the body is reached. -/
def GraphBuilder.compute_row_level_batch_with_device (gb : GraphBuilder)
    (x : List (List ℚ)) : Except PyErr (List (List ℚ)) :=
  Except.error PyErr.typeError

/-- models.py lines 133-141: the state of a `BaseAutoEncoder` relevant to
`get_graph_batch` (its `edge_level` flag and optional graph builder). -/
structure BaseAutoEncoder where
  edge_level : Bool
  graph_builder : Option GraphBuilder

/-- models.py lines 139-141: `set_edge_level_graphbuilder`. -/
def BaseAutoEncoder.set_edge_level_graphbuilder (ae : BaseAutoEncoder)
    (gb : GraphBuilder) : BaseAutoEncoder :=
  BaseAutoEncoder.mk true (some gb)

/-- models.py lines 143-147: `get_graph_batch`.  In the edge-level case it
performs the two-argument call modelled by
`GraphBuilder.compute_row_level_batch_with_device`. -/
def BaseAutoEncoder.get_graph_batch (ae : BaseAutoEncoder) (x : List (List ℚ)) :
    Except PyErr (List (List ℚ)) :=
  if ae.edge_level then
    match ae.graph_builder with
    | some gb => gb.compute_row_level_batch_with_device x
    | none => Except.error PyErr.attributeError
  else Except.ok x

/-- Element of a Lightning batch as routed by `UniversalGNN.common_step`:
either a tensor or a dataset object carrying its Python class name. -/
inductive BatchElem where
  | tensor (t : List (List ℚ))
  | obj (className : String)

/-- Python expression `type(elem).__name__`. -/
def BatchElem.typeName : BatchElem → String
  | BatchElem.tensor _ => "Tensor"
  | BatchElem.obj c => c

/-- models.py lines 267-279: the state of a `UniversalGNN` module.  The single
`gnn` field is shared by all datasets; the per-dataset autoencoders, graph
builders and regressors are keyed by dataset name. -/
structure UniversalGNN where
  gnn : List (List ℚ) → List (ℕ × ℕ) → List NpVal → List (List ℚ)
  autoencoders : List (String × BaseAutoEncoder)
  graphbuilders : List (String × GraphBuilder)
  regressors : List (String × (List (List ℚ) → List (List ℚ)))
  default_dataset_name : Option String

/-- models.py lines 269-279: the `UniversalGNN` constructor.  The attribute
`default_dataset_name` is assigned only when exactly one autoencoder is
registered (lines 277-279); otherwise reading it raises `AttributeError`,
modelled by `none`. -/
def mkUniversalGNN (gnn : List (List ℚ) → List (ℕ × ℕ) → List NpVal → List (List ℚ))
    (autoencoders : List (String × BaseAutoEncoder))
    (graphbuilders : List (String × GraphBuilder))
    (regressors : List (String × (List (List ℚ) → List (List ℚ)))) : UniversalGNN :=
  UniversalGNN.mk gnn autoencoders graphbuilders regressors
    (if autoencoders.length = 1 then autoencoders.head?.map Prod.fst else none)

/-- models.py lines 281-291: `UniversalGNN.forward`.  Line 283 performs the
two-argument call `compute_graph(x, self.device)` modelled by
`GraphBuilder.compute_graph_with_device`; a dataset name missing from the
dictionaries raises `KeyError`. -/
def UniversalGNN.forward (m : UniversalGNN) (x : List (List ℚ)) (dataset_name : String) :
    Except PyErr (List (List ℚ)) :=
  let batch_size := x.length
  match m.graphbuilders.lookup dataset_name with
  | none => Except.error PyErr.keyError
  | some gb =>
    match gb.compute_graph_with_device x with
    | Except.error e => Except.error e
    | Except.ok g =>
      let out := m.gnn g.1 g.2.1 g.2.2
      let afterEdge : Except PyErr (List (List ℚ)) :=
        if gb.edge_level_batch then
          let src := out.take batch_size
          let tgt := out.drop batch_size
          if src.length = tgt.length then
            Except.ok (List.zipWith (fun a b => a ++ b) src tgt)
          else Except.error PyErr.assertionError
        else Except.ok out
      match afterEdge with
      | Except.error e => Except.error e
      | Except.ok o =>
        match m.regressors.lookup dataset_name with
        | none => Except.error PyErr.keyError
        | some reg => Except.ok (reg o)

/-- models.py lines 294-301: the dataset-name selection performed at the start
of `UniversalGNN.common_step`.  A 3-element batch is routed to the class name
of its third element; a 2-element batch to `default_dataset_name` (raising
`AttributeError` when that attribute was never assigned); any other length
raises `RuntimeError`. -/
def UniversalGNN.common_step_dataset_name (m : UniversalGNN) (batch : List BatchElem) :
    Except PyErr String :=
  if batch.length = 3 then Except.ok ((batch.getD 2 (BatchElem.obj "")).typeName)
  else if batch.length = 2 then
    match m.default_dataset_name with
    | some n => Except.ok n
    | none => Except.error PyErr.attributeError
  else Except.error PyErr.runtimeError

/-- Spec wording for the score transform of claim C2: a distance of `0` or
infinity is mapped to `0`, any other distance `d` to `1/d`. -/
def spec_score (x : PyFloat) : ℚ :=
  if x = PyFloat.fin 0 ∨ x = PyFloat.inf then 0
  else match x with
    | PyFloat.fin d => 1 / d
    | PyFloat.inf => 0

/-- Spec wording for the sparsification of claim C2: zero every score less
than or equal to the quantile. -/
def spec_zero_out (q : ℚ) (M : List (List ℚ)) : List (List ℚ) :=
  M.map (List.map (fun s => if s ≤ q then 0 else s))

/-- Pipeline as the original claim C2 states it, written exactly in the order
stated by the spec: select the columns listed in `params_indeces`, compute the
pairwise distance matrix, apply the score transform, zero every score at most
the `(1 - sparsity)`-quantile, divide by the maximum, convert to sparse.  This
pipeline omits the int64 truncation that `np.vectorize`'s dtype inference
inserts; the program coincides with it only when the first distance is neither
`0` nor infinity. -/
def spec_edges (gb : GraphBuilder) (batch : List (List ℚ)) :
    List (ℕ × ℕ) × List NpVal :=
  let sel := index_select batch gb.params_indeces
  let dists := cdist gb.distance_function sel
  let scores := dists.map (List.map spec_score)
  let q := np_quantile scores.flatten (1 - gb.sparsity)
  let z := spec_zero_out q scores
  let m := list_max z.flatten
  dense_to_sparse (z.map (List.map (fun s => npDiv s m)))

/-- Dtype step of the amended claim C2: when the first entry of the distance
matrix is `0` or infinity, `np.vectorize` infers an integer output dtype and
every score is truncated toward zero; otherwise the scores are unchanged. -/
def spec_truncate_scores (D : List (List PyFloat)) (scores : List (List ℚ)) :
    List (List ℚ) :=
  if (D.getD 0 []).getD 0 PyFloat.inf = PyFloat.fin 0 ∨
      (D.getD 0 []).getD 0 PyFloat.inf = PyFloat.inf then
    scores.map (List.map int_trunc)
  else scores

/-- Pipeline of the amended claim C2: as `spec_edges`, with the dtype
truncation step of `np.vectorize` inserted after the score transform. -/
def spec_edges_vectorized (gb : GraphBuilder) (batch : List (List ℚ)) :
    List (ℕ × ℕ) × List NpVal :=
  let sel := index_select batch gb.params_indeces
  let dists := cdist gb.distance_function sel
  let scores := spec_truncate_scores dists (dists.map (List.map spec_score))
  let q := np_quantile scores.flatten (1 - gb.sparsity)
  let z := spec_zero_out q scores
  let m := list_max z.flatten
  dense_to_sparse (z.map (List.map (fun s => npDiv s m)))

/-- Concrete absolute-difference distance on the first coordinate. -/
def absDist : List ℚ → List ℚ → PyFloat :=
  fun u v => PyFloat.fin |u.getD 0 0 - v.getD 0 0|

/-- Concrete distance function taking strictly negative values; being nonzero
on the diagonal, it keeps `np.vectorize` in the float regime (no truncation). -/
def negDist : List ℚ → List ℚ → PyFloat :=
  fun u v => PyFloat.fin (-1 - |u.getD 0 0 - v.getD 0 0|)

/-- Row-level graph builder with the absolute-difference distance, feature
column 0, sparsity 1/2 and the identity encoder. -/
def gbA : GraphBuilder :=
  GraphBuilder.mk absDist [0] (1/2) (fun b => b) false

/-- Graph builder identical to `gbA` but with a nonpositive distance. -/
def gbNeg : GraphBuilder :=
  GraphBuilder.mk negDist [0] (1/2) (fun b => b) false

/-- Graph builder identical to `gbA` but flagged as edge-level. -/
def gbEdge : GraphBuilder :=
  GraphBuilder.mk absDist [0] (1/2) (fun b => b) true

/-- Batch of two distinct rows. -/
def batchA : List (List ℚ) := [[0], [2]]

/-- Batch of two identical rows: every pairwise distance, hence every score,
is zero. -/
def batchBad : List (List ℚ) := [[1], [1]]

/-- Batch of two rows at distance 1/2, whose score 2 survives the int64
truncation of the vectorized score transform. -/
def batchT : List (List ℚ) := [[0], [1/2]]

/-- Batch used with `negDist`: the diagonal distance is -1, the off-diagonal
distance is -2. -/
def batchNeg : List (List ℚ) := [[0], [1]]

/-- Batch agreeing with `batchW2` on column 0 (the only selected column). -/
def batchW1 : List (List ℚ) := [[0, 5], [2, 7]]

/-- Batch agreeing with `batchW1` on column 0 but differing on column 1. -/
def batchW2 : List (List ℚ) := [[0, 9], [2, 3]]

/-- Autoencoder in its freshly constructed state (models.py line 137). -/
def ae0 : BaseAutoEncoder := BaseAutoEncoder.mk false none

/-- Concrete universal model with one registered dataset. -/
def demoModel : UniversalGNN :=
  mkUniversalGNN (fun nodes _ _ => nodes) [("DemoDS", ae0)] [("DemoDS", gbA)]
    [("DemoDS", fun o => o)]

/-! ### Helper lemmas -/

theorem score_function_eq_spec_score : score_function = spec_score := by
  funext x
  cases x with
  | inf => rfl
  | fin q =>
    by_cases h : q = 0
    · simp [score_function, spec_score, h]
    · simp [score_function, spec_score, h]

theorem fin_ne_inf (q : ℚ) : ¬ PyFloat.fin q = PyFloat.inf := by
  intro h
  exact PyFloat.noConfusion h

theorem threshold_if_eq_spec_if (q : ℚ) :
    (fun s : ℚ => if q < s then s else 0) = (fun s : ℚ => if s ≤ q then 0 else s) := by
  funext s
  rcases lt_or_le q s with h | h
  · rw [if_pos h, if_neg (not_le.mpr h)]
  · rw [if_neg (not_lt.mpr h), if_pos h]

/-! ### Claim theorems -/

/-- Claim C1 (code_bug evidence): every call of `UniversalGNN.forward` raises
`TypeError`, because models.py line 283 passes two arguments to
`GraphBuilder.compute_graph`, which accepts only the batch.  Evaluated here at
a concrete model and batch; the graph is never built. -/
theorem C1_forward_raises_typeError :
    demoModel.forward batchA "DemoDS" = Except.error PyErr.typeError := rfl

theorem scores_matrix_eq_spec (gb : GraphBuilder) (batch : List (List ℚ)) :
    gb.scores_matrix batch =
      spec_truncate_scores
        (cdist gb.distance_function (index_select batch gb.params_indeces))
        ((cdist gb.distance_function (index_select batch gb.params_indeces)).map
          (List.map spec_score)) := by
  simp only [GraphBuilder.scores_matrix, GraphBuilder.vectorized_score,
    spec_truncate_scores, first_distance, score_function_eq_spec_score]
  by_cases h : ((cdist gb.distance_function
        (index_select batch gb.params_indeces)).getD 0 []).getD 0 PyFloat.inf =
      PyFloat.fin 0 ∨
      ((cdist gb.distance_function
        (index_select batch gb.params_indeces)).getD 0 []).getD 0 PyFloat.inf =
      PyFloat.inf
  · rw [if_pos h, if_pos h, List.map_map]
    apply List.map_congr_left
    intro r _
    rw [Function.comp_apply, List.map_map]
    rfl
  · rw [if_neg h, if_neg h]

/-- Claim C2, amended (corrected): `compute_edges_matrices` performs the
stated steps in order -- column selection, pairwise distances, the score
transform (0 and infinity map to 0, any other d to 1/d), zeroing of scores at
most the `(1 - sparsity)`-quantile, division by the maximum, dense-to-sparse
conversion -- except that the score transform is followed by the dtype cast
of `np.vectorize`: whenever the first entry of the distance matrix is 0 or
infinity the inferred output dtype is int64 and every score is truncated
toward zero before the quantile step. -/
theorem C2_amended (gb : GraphBuilder) (batch : List (List ℚ)) :
    gb.compute_edges_matrices batch = spec_edges_vectorized gb batch := by
  unfold GraphBuilder.compute_edges_matrices spec_edges_vectorized
    GraphBuilder.normalized GraphBuilder.thresholded GraphBuilder.quantile_value
    spec_zero_out
  rw [scores_matrix_eq_spec, threshold_if_eq_spec_if]

/-- Claim C5 (code_bug evidence): the node matrix is the encoder output
(`compute_nodes_matrix = encoder`), but `UniversalGNN.forward` never reaches
the GNN or the regressor: the two-argument `compute_graph` call of models.py
line 283 raises `TypeError` for every registered dataset name. -/
theorem C5_nodes_encoder_but_forward_crashes :
    (∀ (gb : GraphBuilder) (batch : List (List ℚ)),
        gb.compute_nodes_matrix batch = gb.encoder batch) ∧
    (∀ (m : UniversalGNN) (x : List (List ℚ)) (name : String),
        m.forward x name = Except.error PyErr.keyError ∨
        m.forward x name = Except.error PyErr.typeError) := by
  constructor
  · intro gb batch
    rfl
  · intro m x name
    unfold UniversalGNN.forward
    cases hl : m.graphbuilders.lookup name with
    | none =>
      left
      rfl
    | some gb =>
      right
      rfl

/-- Claim C6 (confirmed): the constructor stores per-dataset dictionaries next
to one shared GNN; `common_step` routes a 3-element batch to the class name of
its third element, a 2-element batch to the default dataset name, which is
defined iff exactly one autoencoder is registered, and any other batch length
to a `RuntimeError`. -/
theorem C6_common_step_routing
    (g : List (List ℚ) → List (ℕ × ℕ) → List NpVal → List (List ℚ))
    (aes : List (String × BaseAutoEncoder))
    (gbs : List (String × GraphBuilder))
    (regs : List (String × (List (List ℚ) → List (List ℚ))))
    (batch : List BatchElem) :
    ((mkUniversalGNN g aes gbs regs).default_dataset_name.isSome ↔ aes.length = 1) ∧
    (batch.length = 3 →
      (mkUniversalGNN g aes gbs regs).common_step_dataset_name batch =
        Except.ok ((batch.getD 2 (BatchElem.obj "")).typeName)) ∧
    (batch.length = 2 → ∀ nm,
      (mkUniversalGNN g aes gbs regs).default_dataset_name = some nm →
      (mkUniversalGNN g aes gbs regs).common_step_dataset_name batch = Except.ok nm) ∧
    (batch.length = 2 →
      (mkUniversalGNN g aes gbs regs).default_dataset_name = none →
      (mkUniversalGNN g aes gbs regs).common_step_dataset_name batch =
        Except.error PyErr.attributeError) ∧
    (batch.length ≠ 3 → batch.length ≠ 2 →
      (mkUniversalGNN g aes gbs regs).common_step_dataset_name batch =
        Except.error PyErr.runtimeError) := by
  refine ⟨?_, ?_, ?_, ?_, ?_⟩
  · unfold mkUniversalGNN
    by_cases h : aes.length = 1
    · rw [if_pos h]
      cases aes with
      | nil => exact absurd h (by simp)
      | cons a t => simp [h]
    · rw [if_neg h]
      simp [h]
  · intro h3
    unfold UniversalGNN.common_step_dataset_name
    rw [if_pos h3]
  · intro h2 nm hnm
    unfold UniversalGNN.common_step_dataset_name
    rw [if_neg (by omega), if_pos h2, hnm]
  · intro h2 hnone
    unfold UniversalGNN.common_step_dataset_name
    rw [if_neg (by omega), if_pos h2, hnone]
  · intro h3 h2
    unfold UniversalGNN.common_step_dataset_name
    rw [if_neg h3, if_neg h2]

theorem C6_witness :
    (demoModel.common_step_dataset_name
        [BatchElem.tensor [[1]], BatchElem.tensor [[2]], BatchElem.obj "ClimARTDataset"] =
      Except.ok "ClimARTDataset") ∧
    (demoModel.common_step_dataset_name [BatchElem.tensor [[1]], BatchElem.tensor [[2]]] =
      Except.ok "DemoDS") ∧
    (demoModel.common_step_dataset_name [BatchElem.tensor [[1]]] =
      Except.error PyErr.runtimeError) :=
  ⟨(C6_common_step_routing (fun nodes _ _ => nodes) [("DemoDS", ae0)] [("DemoDS", gbA)]
      [("DemoDS", fun o => o)]
      [BatchElem.tensor [[1]], BatchElem.tensor [[2]], BatchElem.obj "ClimARTDataset"]).2.1 rfl,
   (C6_common_step_routing (fun nodes _ _ => nodes) [("DemoDS", ae0)] [("DemoDS", gbA)]
      [("DemoDS", fun o => o)]
      [BatchElem.tensor [[1]], BatchElem.tensor [[2]]]).2.2.1 rfl "DemoDS" rfl,
   (C6_common_step_routing (fun nodes _ _ => nodes) [("DemoDS", ae0)] [("DemoDS", gbA)]
      [("DemoDS", fun o => o)]
      [BatchElem.tensor [[1]]]).2.2.2.2 (by decide) (by decide)⟩

/-- Claim C7, amended (corrected): `compute_graph` on an edge-level builder
raises `NotImplementedError` before any node or edge computation, but
`BaseAutoEncoder.get_graph_batch` after `set_edge_level_graphbuilder` raises
`TypeError`, not `NotImplementedError`: models.py line 145 passes the extra
`device` argument to `compute_row_level_batch`. -/
theorem C7_amended :
    (∀ (gb : GraphBuilder) (batch : List (List ℚ)), gb.edge_level_batch = true →
      gb.compute_graph batch = Except.error PyErr.notImplementedError) ∧
    (∀ (ae : BaseAutoEncoder) (gb : GraphBuilder) (x : List (List ℚ)),
      (ae.set_edge_level_graphbuilder gb).get_graph_batch x =
        Except.error PyErr.typeError) := by
  constructor
  · intro gb batch h
    unfold GraphBuilder.compute_graph
    rw [h]
    rfl
  · intro ae gb x
    rfl

theorem C7_witness :
    gbEdge.compute_graph batchA = Except.error PyErr.notImplementedError ∧
    (ae0.set_edge_level_graphbuilder gbEdge).get_graph_batch batchA =
      Except.error PyErr.typeError :=
  ⟨C7_amended.1 gbEdge batchA rfl, C7_amended.2 ae0 gbEdge batchA⟩

/-- Claim C7, counterexample to the claim as stated: after
`set_edge_level_graphbuilder`, `get_graph_batch` returns `TypeError`, which is
not the `NotImplementedError` the claim asserts. -/
theorem C7_counterexample :
    (ae0.set_edge_level_graphbuilder gbEdge).get_graph_batch batchA =
      Except.error PyErr.typeError ∧
    (Except.error PyErr.typeError : Except PyErr (List (List ℚ))) ≠
      Except.error PyErr.notImplementedError := by
  constructor
  · rfl
  · intro h
    exact absurd (Except.error.inj h) (by intro hh; cases hh)

/-- Claim C9 (confirmed): the edges depend only on the columns listed in
`params_indeces`; two batches of equal length agreeing on those columns
produce identical edge indices and edge weights. -/
theorem C9_edges_depend_only_on_selected_columns (gb : GraphBuilder)
    (b1 b2 : List (List ℚ)) (hlen : b1.length = b2.length)
    (hagree : ∀ i < b1.length, ∀ j ∈ gb.params_indeces,
      (b1.getD i []).getD j 0 = (b2.getD i []).getD j 0) :
    gb.compute_edges_matrices b1 = gb.compute_edges_matrices b2 := by
  have hsel : index_select b1 gb.params_indeces = index_select b2 gb.params_indeces := by
    apply List.ext_getElem?
    intro n
    unfold index_select
    rw [List.getElem?_map, List.getElem?_map]
    by_cases h : n < b1.length
    · rw [List.getElem?_eq_getElem h, List.getElem?_eq_getElem (hlen ▸ h)]
      simp only [Option.map_some']
      congr 1
      apply List.map_congr_left
      intro j hj
      have h1 : b1.getD n [] = b1[n] := by
        rw [List.getD_eq_getElem?_getD, List.getElem?_eq_getElem h]
        rfl
      have h2 : b2.getD n [] = b2[n] := by
        rw [List.getD_eq_getElem?_getD, List.getElem?_eq_getElem (hlen ▸ h)]
        rfl
      have := hagree n h j hj
      rw [h1, h2] at this
      exact this
    · rw [List.getElem?_eq_none (by omega), List.getElem?_eq_none (by omega)]
  unfold GraphBuilder.compute_edges_matrices GraphBuilder.normalized
    GraphBuilder.thresholded GraphBuilder.quantile_value GraphBuilder.scores_matrix
    GraphBuilder.vectorized_score first_distance
  rw [hsel]

/-! ### Lemmas about list_max -/

theorem le_foldl_max (ys : List ℚ) (a : ℚ) : a ≤ ys.foldl max a := by
  induction ys generalizing a with
  | nil => exact le_refl a
  | cons y ys ih => exact le_trans (le_max_left a y) (ih (max a y))

theorem mem_le_foldl_max (ys : List ℚ) (a x : ℚ) (hx : x ∈ ys) : x ≤ ys.foldl max a := by
  induction ys generalizing a with
  | nil => cases hx
  | cons y ys ih =>
    rcases List.mem_cons.mp hx with h | h
    · subst h
      exact le_trans (le_max_right a x) (le_foldl_max ys (max a x))
    · exact ih (max a y) h

theorem le_list_max (l : List ℚ) (x : ℚ) (hx : x ∈ l) : x ≤ list_max l := by
  cases l with
  | nil => cases hx
  | cons y ys =>
    rcases List.mem_cons.mp hx with h | h
    · subst h
      exact le_foldl_max ys x
    · exact mem_le_foldl_max ys y x h

theorem foldl_max_mem (ys : List ℚ) (a : ℚ) : ys.foldl max a = a ∨ ys.foldl max a ∈ ys := by
  induction ys generalizing a with
  | nil => exact Or.inl rfl
  | cons y ys ih =>
    rcases ih (max a y) with h | h
    · rcases max_choice a y with hm | hm
      · exact Or.inl (by rw [List.foldl_cons, h, hm])
      · exact Or.inr (List.mem_cons.mpr (Or.inl (by rw [List.foldl_cons, h, hm])))
    · exact Or.inr (List.mem_cons.mpr (Or.inr h))

theorem list_max_mem (l : List ℚ) (hl : l ≠ []) : list_max l ∈ l := by
  cases l with
  | nil => exact absurd rfl hl
  | cons y ys =>
    rcases foldl_max_mem ys y with h | h
    · exact List.mem_cons.mpr (Or.inl h)
    · exact List.mem_cons.mpr (Or.inr h)

/-! ### Score function and matrix access lemmas -/

theorem score_function_nonneg (p : PyFloat) (hp : p.Nonneg) : 0 ≤ score_function p := by
  cases p with
  | inf => exact le_refl 0
  | fin q =>
    by_cases h : q = 0
    · simp [score_function, h]
    · have hq : 0 ≤ q := hp
      simp only [score_function, if_neg h]
      exact one_div_nonneg.mpr hq

theorem int_trunc_nonneg (q : ℚ) (hq : 0 ≤ q) : 0 ≤ int_trunc q := by
  unfold int_trunc
  rw [if_pos hq]
  exact_mod_cast Int.floor_nonneg.mpr hq

theorem vectorized_score_nonneg (gb : GraphBuilder) (batch : List (List ℚ))
    (p : PyFloat) (hp : p.Nonneg) : 0 ≤ gb.vectorized_score batch p := by
  unfold GraphBuilder.vectorized_score
  by_cases h : first_distance gb batch = PyFloat.fin 0 ∨
      first_distance gb batch = PyFloat.inf
  · rw [if_pos h]
    exact int_trunc_nonneg _ (score_function_nonneg p hp)
  · rw [if_neg h]
    exact score_function_nonneg p hp

theorem vectorized_score_fin_zero (gb : GraphBuilder) (batch : List (List ℚ)) :
    gb.vectorized_score batch (PyFloat.fin 0) = 0 := by
  unfold GraphBuilder.vectorized_score
  by_cases h : first_distance gb batch = PyFloat.fin 0 ∨
      first_distance gb batch = PyFloat.inf
  · rw [if_pos h]
    show int_trunc (score_function (PyFloat.fin 0)) = 0
    norm_num [score_function, int_trunc]
  · rw [if_neg h]
    norm_num [score_function]

theorem getD_nonneg (l : List ℚ) (i : ℕ) (h : ∀ x ∈ l, 0 ≤ x) : 0 ≤ l.getD i 0 := by
  rw [List.getD_eq_getElem?_getD]
  cases hg : l[i]? with
  | none => simp
  | some x =>
    simp only [Option.getD_some]
    exact h x (List.getElem?_mem hg)

theorem matrix_map_getD {α β : Type} (f : α → β) (M : List (List α)) (i : ℕ)
    (hi : i < M.length) :
    (M.map (List.map f)).getD i [] = List.map f (M.getD i []) := by
  rw [List.getD_eq_getElem _ _ (by rw [List.length_map]; exact hi),
    List.getElem_map, List.getD_eq_getElem _ _ hi]

theorem matrix_map_entry {α β : Type} (f : α → β) (M : List (List α)) (da : α) (db : β)
    (i j : ℕ) (hi : i < M.length) (hj : j < (M.getD i []).length) :
    ((M.map (List.map f)).getD i []).getD j db = f ((M.getD i []).getD j da) := by
  rw [matrix_map_getD f M i hi,
    List.getD_eq_getElem _ _ (by rw [List.length_map]; exact hj),
    List.getElem_map, List.getD_eq_getElem _ _ hj]

theorem index_select_length (batch : List (List ℚ)) (idx : List ℕ) :
    (index_select batch idx).length = batch.length := by
  unfold index_select
  rw [List.length_map]

theorem cdist_length (d : List ℚ → List ℚ → PyFloat) (rows : List (List ℚ)) :
    (cdist d rows).length = rows.length := by
  unfold cdist
  rw [List.length_map]

theorem cdist_getD (d : List ℚ → List ℚ → PyFloat) (rows : List (List ℚ)) (i : ℕ)
    (hi : i < rows.length) :
    (cdist d rows).getD i [] = rows.map (fun s => d (rows.getD i []) s) := by
  unfold cdist
  rw [List.getD_eq_getElem _ _ (by rw [List.length_map]; exact hi),
    List.getElem_map, List.getD_eq_getElem _ _ hi]

theorem cdist_row_length (d : List ℚ → List ℚ → PyFloat) (rows : List (List ℚ)) (i : ℕ)
    (hi : i < rows.length) :
    ((cdist d rows).getD i []).length = rows.length := by
  rw [cdist_getD d rows i hi, List.length_map]

theorem cdist_entry (d : List ℚ → List ℚ → PyFloat) (rows : List (List ℚ)) (i j : ℕ)
    (hi : i < rows.length) (hj : j < rows.length) :
    ((cdist d rows).getD i []).getD j PyFloat.inf =
      d (rows.getD i []) (rows.getD j []) := by
  rw [cdist_getD d rows i hi,
    List.getD_eq_getElem _ _ (by rw [List.length_map]; exact hj),
    List.getElem_map, List.getD_eq_getElem _ _ hj]

theorem scores_matrix_length (gb : GraphBuilder) (batch : List (List ℚ)) :
    (gb.scores_matrix batch).length = batch.length := by
  unfold GraphBuilder.scores_matrix
  rw [List.length_map, cdist_length, index_select_length]

theorem scores_matrix_rows (gb : GraphBuilder) (batch : List (List ℚ)) :
    ∀ r ∈ gb.scores_matrix batch, r.length = batch.length := by
  intro r hr
  unfold GraphBuilder.scores_matrix at hr
  obtain ⟨r2, hr2, rfl⟩ := List.mem_map.mp hr
  rw [List.length_map]
  unfold cdist at hr2
  obtain ⟨r3, _, rfl⟩ := List.mem_map.mp hr2
  rw [List.length_map, index_select_length]

theorem scores_matrix_row_length (gb : GraphBuilder) (batch : List (List ℚ)) (i : ℕ)
    (hi : i < batch.length) :
    ((gb.scores_matrix batch).getD i []).length = batch.length := by
  have hmem : (gb.scores_matrix batch).getD i [] ∈ gb.scores_matrix batch := by
    rw [List.getD_eq_getElem _ _ (by rw [scores_matrix_length]; exact hi)]
    exact List.getElem_mem _
  exact scores_matrix_rows gb batch _ hmem

theorem scores_matrix_entry (gb : GraphBuilder) (batch : List (List ℚ)) (i j : ℕ)
    (hi : i < batch.length) (hj : j < batch.length) :
    ((gb.scores_matrix batch).getD i []).getD j 0 =
      gb.vectorized_score batch (gb.distance_function
        ((index_select batch gb.params_indeces).getD i [])
        ((index_select batch gb.params_indeces).getD j [])) := by
  unfold GraphBuilder.scores_matrix
  have hi2 : i < (cdist gb.distance_function (index_select batch gb.params_indeces)).length := by
    rw [cdist_length, index_select_length]
    exact hi
  have hj2 : j < ((cdist gb.distance_function (index_select batch gb.params_indeces)).getD i []).length := by
    rw [cdist_row_length _ _ i (by rw [index_select_length]; exact hi), index_select_length]
    exact hj
  rw [matrix_map_entry (gb.vectorized_score batch) _ PyFloat.inf 0 i j hi2 hj2,
    cdist_entry _ _ i j (by rw [index_select_length]; exact hi)
      (by rw [index_select_length]; exact hj)]

theorem scores_flatten_nonneg (gb : GraphBuilder) (batch : List (List ℚ))
    (hd : ∀ u v, (gb.distance_function u v).Nonneg) :
    ∀ x ∈ (gb.scores_matrix batch).flatten, 0 ≤ x := by
  intro x hx
  obtain ⟨r, hr, hxr⟩ := List.mem_flatten.mp hx
  unfold GraphBuilder.scores_matrix at hr
  obtain ⟨r2, hr2, rfl⟩ := List.mem_map.mp hr
  obtain ⟨p, hp, rfl⟩ := List.mem_map.mp hxr
  unfold cdist at hr2
  obtain ⟨r3, _, rfl⟩ := List.mem_map.mp hr2
  obtain ⟨r4, _, rfl⟩ := List.mem_map.mp hp
  exact vectorized_score_nonneg gb batch _ (hd r3 r4)

/-! ### Quantile lemmas -/

theorem np_quantile_eq (l : List ℚ) (q : ℚ) :
    np_quantile l q =
      (l.insertionSort (· ≤ ·)).getD (⌊q * ((l.length : ℚ) - 1)⌋).toNat 0 +
        (q * ((l.length : ℚ) - 1) - (((⌊q * ((l.length : ℚ) - 1)⌋).toNat : ℕ) : ℚ)) *
          ((l.insertionSort (· ≤ ·)).getD
              (min ((⌊q * ((l.length : ℚ) - 1)⌋).toNat + 1) (l.length - 1)) 0 -
            (l.insertionSort (· ≤ ·)).getD (⌊q * ((l.length : ℚ) - 1)⌋).toNat 0) := by
  simp only [np_quantile, List.length_insertionSort]

theorem sorted_getD_mono (a : List ℚ) (hs : a.Sorted (· ≤ ·)) (i j : ℕ) (hij : i ≤ j)
    (hj : j < a.length) : a.getD i 0 ≤ a.getD j 0 := by
  rcases eq_or_lt_of_le hij with h | h
  · subst h
    exact le_refl _
  · rw [List.getD_eq_getElem _ _ (lt_trans h hj), List.getD_eq_getElem _ _ hj]
    exact List.pairwise_iff_getElem.mp hs i j (lt_trans h hj) hj h

theorem np_quantile_nonneg (l : List ℚ) (q : ℚ) (h0 : 0 ≤ q) (h1 : q ≤ 1)
    (hpos : ∀ x ∈ l, 0 ≤ x) : 0 ≤ np_quantile l q := by
  by_cases hl : l = []
  · subst hl
    unfold np_quantile
    simp [List.insertionSort]
  · rw [np_quantile_eq]
    have hsortmem : ∀ x ∈ l.insertionSort (· ≤ ·), 0 ≤ x := fun x hx =>
      hpos x ((List.perm_insertionSort (· ≤ ·) l).subset hx)
    have hN : 1 ≤ l.length := Nat.one_le_iff_ne_zero.mpr
      (fun h => hl (List.eq_nil_of_length_eq_zero h))
    have hNq : (1 : ℚ) ≤ (l.length : ℚ) := by exact_mod_cast hN
    have hh0 : 0 ≤ q * ((l.length : ℚ) - 1) := mul_nonneg h0 (by linarith)
    have hfl0 : (0 : ℤ) ≤ ⌊q * ((l.length : ℚ) - 1)⌋ := Int.floor_nonneg.mpr hh0
    have hcast : (((⌊q * ((l.length : ℚ) - 1)⌋).toNat : ℕ) : ℚ) =
        ((⌊q * ((l.length : ℚ) - 1)⌋ : ℤ) : ℚ) := by
      exact_mod_cast congrArg (fun z : ℤ => (z : ℚ)) (Int.toNat_of_nonneg hfl0)
    have hg0 : 0 ≤ q * ((l.length : ℚ) - 1) - (((⌊q * ((l.length : ℚ) - 1)⌋).toNat : ℕ) : ℚ) := by
      rw [hcast]
      exact sub_nonneg.mpr (Int.floor_le _)
    have hg1 : q * ((l.length : ℚ) - 1) - (((⌊q * ((l.length : ℚ) - 1)⌋).toNat : ℕ) : ℚ) ≤ 1 := by
      rw [hcast]
      have := Int.lt_floor_add_one (q * ((l.length : ℚ) - 1))
      push_cast
      push_cast at this
      linarith
    have hlo := getD_nonneg (l.insertionSort (· ≤ ·)) (⌊q * ((l.length : ℚ) - 1)⌋).toNat hsortmem
    have hhi := getD_nonneg (l.insertionSort (· ≤ ·))
      (min ((⌊q * ((l.length : ℚ) - 1)⌋).toNat + 1) (l.length - 1)) hsortmem
    nlinarith [mul_nonneg hg0 hhi, mul_nonneg (sub_nonneg.mpr hg1) hlo]

theorem getD_floor_le_np_quantile (l : List ℚ) (q : ℚ) (h0 : 0 ≤ q) (h1 : q ≤ 1)
    (hl : l ≠ []) :
    (l.insertionSort (· ≤ ·)).getD (⌊q * ((l.length : ℚ) - 1)⌋).toNat 0 ≤ np_quantile l q := by
  rw [np_quantile_eq]
  have hsort : (l.insertionSort (· ≤ ·)).Sorted (· ≤ ·) := List.sorted_insertionSort (· ≤ ·) l
  have hN : 1 ≤ l.length := Nat.one_le_iff_ne_zero.mpr
    (fun h => hl (List.eq_nil_of_length_eq_zero h))
  have hNq : (1 : ℚ) ≤ (l.length : ℚ) := by exact_mod_cast hN
  have hh0 : 0 ≤ q * ((l.length : ℚ) - 1) := mul_nonneg h0 (by linarith)
  have hfl0 : (0 : ℤ) ≤ ⌊q * ((l.length : ℚ) - 1)⌋ := Int.floor_nonneg.mpr hh0
  have hcast : (((⌊q * ((l.length : ℚ) - 1)⌋).toNat : ℕ) : ℚ) =
      ((⌊q * ((l.length : ℚ) - 1)⌋ : ℤ) : ℚ) := by
    exact_mod_cast congrArg (fun z : ℤ => (z : ℚ)) (Int.toNat_of_nonneg hfl0)
  have hg0 : 0 ≤ q * ((l.length : ℚ) - 1) - (((⌊q * ((l.length : ℚ) - 1)⌋).toNat : ℕ) : ℚ) := by
    rw [hcast]
    exact sub_nonneg.mpr (Int.floor_le _)
  have hiN : (⌊q * ((l.length : ℚ) - 1)⌋).toNat ≤ l.length - 1 := by
    have hfle : ⌊q * ((l.length : ℚ) - 1)⌋ ≤ ((l.length : ℤ) - 1) := by
      have hle : q * ((l.length : ℚ) - 1) ≤ (l.length : ℚ) - 1 := by
        nlinarith
      have h2 : ((((l.length : ℤ) - 1) : ℤ) : ℚ) = (l.length : ℚ) - 1 := by push_cast; ring
      calc ⌊q * ((l.length : ℚ) - 1)⌋ ≤ ⌊(l.length : ℚ) - 1⌋ := Int.floor_le_floor hle
        _ = ((l.length : ℤ) - 1) := by rw [← h2, Int.floor_intCast]
    calc (⌊q * ((l.length : ℚ) - 1)⌋).toNat ≤ ((l.length : ℤ) - 1).toNat :=
          Int.toNat_le_toNat hfle
      _ = l.length - 1 := by omega
  have hsortlen : (l.insertionSort (· ≤ ·)).length = l.length := List.length_insertionSort _ l
  have hmin_lt : min ((⌊q * ((l.length : ℚ) - 1)⌋).toNat + 1) (l.length - 1) <
      (l.insertionSort (· ≤ ·)).length := by
    rw [hsortlen]
    omega
  have hmono : (l.insertionSort (· ≤ ·)).getD (⌊q * ((l.length : ℚ) - 1)⌋).toNat 0 ≤
      (l.insertionSort (· ≤ ·)).getD
        (min ((⌊q * ((l.length : ℚ) - 1)⌋).toNat + 1) (l.length - 1)) 0 := by
    apply sorted_getD_mono _ hsort _ _ _ hmin_lt
    omega
  nlinarith [mul_nonneg hg0 (sub_nonneg.mpr hmono)]

theorem countP_gt_sorted_getD (a : List ℚ) (hs : a.Sorted (· ≤ ·)) (i : ℕ)
    (hi : i < a.length) :
    a.countP (fun x => decide (a.getD i 0 < x)) ≤ a.length - (i + 1) := by
  have hsplit := List.countP_append (fun x => decide (a.getD i 0 < x))
    (a.take (i + 1)) (a.drop (i + 1))
  rw [List.take_append_drop] at hsplit
  rw [hsplit]
  have h1 : (a.take (i + 1)).countP (fun x => decide (a.getD i 0 < x)) = 0 := by
    rw [List.countP_eq_zero]
    intro x hx
    obtain ⟨j, hj, rfl⟩ := List.mem_take_iff_getElem.mp hx
    have hji : j ≤ i := by
      have := lt_min_iff.mp hj
      omega
    have hle : a[j] ≤ a.getD i 0 := by
      rw [List.getD_eq_getElem _ _ hi]
      rcases eq_or_lt_of_le hji with h | h
      · subst h
        exact le_refl _
      · exact List.pairwise_iff_getElem.mp hs j i (lt_min_iff.mp hj).2 hi h
    simp only [decide_eq_true_eq]
    exact not_lt.mpr hle
  have h2 : (a.drop (i + 1)).countP (fun x => decide (a.getD i 0 < x)) ≤
      a.length - (i + 1) := by
    calc (a.drop (i + 1)).countP (fun x => decide (a.getD i 0 < x)) ≤
        (a.drop (i + 1)).length := List.countP_le_length _
      _ = a.length - (i + 1) := List.length_drop _ _
  omega

theorem countP_gt_np_quantile (l : List ℚ) (s : ℚ) (h0 : 0 ≤ s) (h1 : s ≤ 1)
    (hl : l ≠ []) :
    ((l.countP (fun x => decide (np_quantile l (1 - s) < x)) : ℕ) : ℚ) ≤
      s * (l.length : ℚ) + 1 := by
  have hsort : (l.insertionSort (· ≤ ·)).Sorted (· ≤ ·) := List.sorted_insertionSort (· ≤ ·) l
  have hperm : (l.insertionSort (· ≤ ·)).Perm l := List.perm_insertionSort (· ≤ ·) l
  have hsortlen : (l.insertionSort (· ≤ ·)).length = l.length := List.length_insertionSort _ l
  have hN : 1 ≤ l.length := Nat.one_le_iff_ne_zero.mpr
    (fun h => hl (List.eq_nil_of_length_eq_zero h))
  have hNq : (1 : ℚ) ≤ (l.length : ℚ) := by exact_mod_cast hN
  have h0q : 0 ≤ 1 - s := by linarith
  have h1q : 1 - s ≤ 1 := by linarith
  have hh0 : 0 ≤ (1 - s) * ((l.length : ℚ) - 1) := mul_nonneg h0q (by linarith)
  have hfl0 : (0 : ℤ) ≤ ⌊(1 - s) * ((l.length : ℚ) - 1)⌋ := Int.floor_nonneg.mpr hh0
  have hcast : (((⌊(1 - s) * ((l.length : ℚ) - 1)⌋).toNat : ℕ) : ℚ) =
      ((⌊(1 - s) * ((l.length : ℚ) - 1)⌋ : ℤ) : ℚ) := by
    exact_mod_cast congrArg (fun z : ℤ => (z : ℚ)) (Int.toNat_of_nonneg hfl0)
  have hiN : (⌊(1 - s) * ((l.length : ℚ) - 1)⌋).toNat ≤ l.length - 1 := by
    have hle : (1 - s) * ((l.length : ℚ) - 1) ≤ (l.length : ℚ) - 1 := by nlinarith
    have h2 : ((((l.length : ℤ) - 1) : ℤ) : ℚ) = (l.length : ℚ) - 1 := by push_cast; ring
    have hfle : ⌊(1 - s) * ((l.length : ℚ) - 1)⌋ ≤ ((l.length : ℤ) - 1) := by
      calc ⌊(1 - s) * ((l.length : ℚ) - 1)⌋ ≤ ⌊(l.length : ℚ) - 1⌋ := Int.floor_le_floor hle
        _ = ((l.length : ℤ) - 1) := by rw [← h2, Int.floor_intCast]
    calc (⌊(1 - s) * ((l.length : ℚ) - 1)⌋).toNat ≤ ((l.length : ℤ) - 1).toNat :=
          Int.toNat_le_toNat hfle
      _ = l.length - 1 := by omega
  have hi : (⌊(1 - s) * ((l.length : ℚ) - 1)⌋).toNat < (l.insertionSort (· ≤ ·)).length := by
    rw [hsortlen]
    omega
  have hpiv := getD_floor_le_np_quantile l (1 - s) h0q h1q hl
  have hstep1 : l.countP (fun x => decide (np_quantile l (1 - s) < x)) =
      (l.insertionSort (· ≤ ·)).countP (fun x => decide (np_quantile l (1 - s) < x)) :=
    (hperm.countP_eq _).symm
  have hstep2 : (l.insertionSort (· ≤ ·)).countP (fun x => decide (np_quantile l (1 - s) < x)) ≤
      (l.insertionSort (· ≤ ·)).countP (fun x => decide
        ((l.insertionSort (· ≤ ·)).getD (⌊(1 - s) * ((l.length : ℚ) - 1)⌋).toNat 0 < x)) := by
    apply List.countP_mono_left
    intro x _ hx
    simp only [decide_eq_true_eq] at hx ⊢
    exact lt_of_le_of_lt hpiv hx
  have hstep3 := countP_gt_sorted_getD (l.insertionSort (· ≤ ·)) hsort
    (⌊(1 - s) * ((l.length : ℚ) - 1)⌋).toNat hi
  have hcount_le : l.countP (fun x => decide (np_quantile l (1 - s) < x)) ≤
      l.length - ((⌊(1 - s) * ((l.length : ℚ) - 1)⌋).toNat + 1) := by
    rw [hstep1]
    calc _ ≤ _ := hstep2
      _ ≤ (l.insertionSort (· ≤ ·)).length -
          ((⌊(1 - s) * ((l.length : ℚ) - 1)⌋).toNat + 1) := hstep3
      _ = l.length - ((⌊(1 - s) * ((l.length : ℚ) - 1)⌋).toNat + 1) := by rw [hsortlen]
  have hcount_leq : ((l.countP (fun x => decide (np_quantile l (1 - s) < x)) : ℕ) : ℚ) ≤
      (l.length : ℚ) - ((((⌊(1 - s) * ((l.length : ℚ) - 1)⌋).toNat : ℕ) : ℚ) + 1) := by
    have hle2 : (⌊(1 - s) * ((l.length : ℚ) - 1)⌋).toNat + 1 ≤ l.length := by omega
    have := Nat.cast_le (α := ℚ).mpr hcount_le
    rw [Nat.cast_sub hle2] at this
    push_cast at this ⊢
    linarith
  have hfloor_gt : ((⌊(1 - s) * ((l.length : ℚ) - 1)⌋ : ℤ) : ℚ) >
      (1 - s) * ((l.length : ℚ) - 1) - 1 := by
    have := Int.lt_floor_add_one ((1 - s) * ((l.length : ℚ) - 1))
    linarith
  rw [hcast] at hcount_leq
  nlinarith [hcount_leq, hfloor_gt]

/-! ### Lemmas about dense_to_sparse -/

theorem countP_flatMap {α β : Type} (p : β → Bool) (f : α → List β) (l : List α) :
    (l.flatMap f).countP p = (l.map (fun x => (f x).countP p)).sum := by
  induction l with
  | nil => rfl
  | cons x xs ih =>
    rw [List.flatMap_cons, List.countP_append, List.map_cons, List.sum_cons, ih]

theorem map_getD_range {α : Type} (r : List α) (d : α) :
    (List.range r.length).map (fun j => r.getD j d) = r := by
  induction r with
  | nil => rfl
  | cons x xs ih =>
    rw [List.length_cons, List.range_succ_eq_map, List.map_cons, List.map_map]
    have hcomp : ((fun j => (x :: xs).getD j d) ∘ Nat.succ) = (fun j => xs.getD j d) := by
      funext j
      simp [Function.comp, List.getD_cons_succ]
    rw [hcomp, ih]
    rfl

theorem countP_range_getD {α : Type} (r : List α) (d : α) (p : α → Bool) :
    (List.range r.length).countP (fun j => p (r.getD j d)) = r.countP p := by
  have h := List.countP_map p (fun j => r.getD j d) (List.range r.length)
  rw [map_getD_range r d] at h
  exact h.symm

theorem dense_to_sparse_fst_length (M : List (List NpVal)) :
    (dense_to_sparse M).1.length = M.flatten.countP NpVal.nonzero := by
  unfold dense_to_sparse
  rw [← List.countP_eq_length_filter, countP_flatMap, List.countP_flatten]
  have hcell : ∀ i : ℕ,
      ((List.range ((M.getD i []).length)).map (fun j => (i, j))).countP
        (fun p => ((M.getD p.1 []).getD p.2 (NpVal.num 0)).nonzero) =
      (M.getD i []).countP NpVal.nonzero := by
    intro i
    rw [List.countP_map]
    exact countP_range_getD (M.getD i []) (NpVal.num 0) NpVal.nonzero
  have hmapeq : (List.range M.length).map (fun i =>
      ((List.range ((M.getD i []).length)).map (fun j => (i, j))).countP
        (fun p => ((M.getD p.1 []).getD p.2 (NpVal.num 0)).nonzero)) =
      (List.range M.length).map (fun i => (M.getD i []).countP NpVal.nonzero) :=
    List.map_congr_left (fun i _ => hcell i)
  rw [hmapeq]
  have houter := List.map_map (List.countP NpVal.nonzero) (fun i => M.getD i [])
    (List.range M.length)
  rw [map_getD_range M []] at houter
  rw [houter]
  rfl

theorem dense_to_sparse_fst_mem (M : List (List NpVal)) (i j : ℕ) :
    (i, j) ∈ (dense_to_sparse M).1 ↔
      (i < M.length ∧ j < (M.getD i []).length ∧
        ((M.getD i []).getD j (NpVal.num 0)).nonzero = true) := by
  unfold dense_to_sparse
  simp only [List.mem_filter, List.mem_flatMap, List.mem_map, List.mem_range]
  constructor
  · rintro ⟨⟨i2, hi2, j2, hj2, heq⟩, hnz⟩
    have hii : i2 = i := congrArg Prod.fst heq
    have hjj : j2 = j := congrArg Prod.snd heq
    subst hii
    subst hjj
    exact ⟨hi2, hj2, hnz⟩
  · rintro ⟨hi, hj, hnz⟩
    exact ⟨⟨i, hi, j, hj, rfl⟩, hnz⟩

theorem dense_to_sparse_snd_mem (M : List (List NpVal)) (w : NpVal) :
    w ∈ (dense_to_sparse M).2 ↔
      ∃ i j, i < M.length ∧ j < (M.getD i []).length ∧
        (M.getD i []).getD j (NpVal.num 0) = w ∧ w.nonzero = true := by
  unfold dense_to_sparse
  simp only [List.mem_map, List.mem_filter, List.mem_flatMap, List.mem_range]
  constructor
  · rintro ⟨⟨i2, j2⟩, ⟨⟨i3, hi3, j3, hj3, heq⟩, hnz⟩, rfl⟩
    have hii : i3 = i2 := congrArg Prod.fst heq
    have hjj : j3 = j2 := congrArg Prod.snd heq
    subst hii
    subst hjj
    exact ⟨i3, j3, hi3, hj3, rfl, hnz⟩
  · rintro ⟨i, j, hi, hj, hw, hnz⟩
    refine ⟨(i, j), ⟨⟨i, hi, j, hj, rfl⟩, ?_⟩, hw⟩
    rw [hw]
    exact hnz

/-! ### Flatten lemmas for the score pipeline -/

theorem flatten_length_of_rows {α : Type} (M : List (List α)) (k : ℕ)
    (h : ∀ r ∈ M, r.length = k) : M.flatten.length = M.length * k := by
  rw [List.length_flatten]
  have hrep : M.map List.length = List.replicate M.length k := by
    rw [List.eq_replicate]
    constructor
    · rw [List.length_map]
    · intro b hb
      obtain ⟨r, hr, rfl⟩ := List.mem_map.mp hb
      exact h r hr
  rw [hrep, List.sum_replicate, smul_eq_mul]

theorem thresholded_flatten (gb : GraphBuilder) (batch : List (List ℚ)) :
    (gb.thresholded batch).flatten =
      (gb.scores_matrix batch).flatten.map
        (fun s => if gb.quantile_value batch < s then s else 0) := by
  unfold GraphBuilder.thresholded
  rw [List.map_flatten]

theorem normalized_flatten (gb : GraphBuilder) (batch : List (List ℚ)) :
    (gb.normalized batch).flatten =
      (gb.thresholded batch).flatten.map
        (fun s => npDiv s (list_max (gb.thresholded batch).flatten)) := by
  unfold GraphBuilder.normalized
  rw [List.map_flatten]

theorem thresholded_length (gb : GraphBuilder) (batch : List (List ℚ)) :
    (gb.thresholded batch).length = batch.length := by
  unfold GraphBuilder.thresholded
  rw [List.length_map, scores_matrix_length]

theorem thresholded_row_length (gb : GraphBuilder) (batch : List (List ℚ)) (i : ℕ)
    (hi : i < batch.length) :
    ((gb.thresholded batch).getD i []).length = batch.length := by
  unfold GraphBuilder.thresholded
  rw [matrix_map_getD _ _ i (by rw [scores_matrix_length]; exact hi), List.length_map,
    scores_matrix_row_length gb batch i hi]

theorem normalized_length (gb : GraphBuilder) (batch : List (List ℚ)) :
    (gb.normalized batch).length = batch.length := by
  unfold GraphBuilder.normalized
  rw [List.length_map, thresholded_length]

theorem normalized_row_length (gb : GraphBuilder) (batch : List (List ℚ)) (i : ℕ)
    (hi : i < batch.length) :
    ((gb.normalized batch).getD i []).length = batch.length := by
  unfold GraphBuilder.normalized
  rw [matrix_map_getD _ _ i (by rw [thresholded_length]; exact hi), List.length_map,
    thresholded_row_length gb batch i hi]

theorem thresholded_entry (gb : GraphBuilder) (batch : List (List ℚ)) (i j : ℕ)
    (hi : i < batch.length) (hj : j < batch.length) :
    ((gb.thresholded batch).getD i []).getD j 0 =
      (if gb.quantile_value batch < ((gb.scores_matrix batch).getD i []).getD j 0
        then ((gb.scores_matrix batch).getD i []).getD j 0 else 0) := by
  unfold GraphBuilder.thresholded
  rw [matrix_map_entry _ _ 0 0 i j (by rw [scores_matrix_length]; exact hi)
    (by rw [scores_matrix_row_length gb batch i hi]; exact hj)]

theorem normalized_entry (gb : GraphBuilder) (batch : List (List ℚ)) (i j : ℕ)
    (hi : i < batch.length) (hj : j < batch.length) :
    ((gb.normalized batch).getD i []).getD j (NpVal.num 0) =
      npDiv (((gb.thresholded batch).getD i []).getD j 0)
        (list_max (gb.thresholded batch).flatten) := by
  unfold GraphBuilder.normalized
  rw [matrix_map_entry _ _ 0 (NpVal.num 0) i j (by rw [thresholded_length]; exact hi)
    (by rw [thresholded_row_length gb batch i hi]; exact hj)]

/-! ### Central lemmas for the sparsification claims -/

theorem npDiv_of_ne (a b : ℚ) (hb : b ≠ 0) : npDiv a b = NpVal.num (a / b) := by
  unfold npDiv
  rw [if_neg hb]

theorem npDiv_nonzero_iff (a b : ℚ) (hb : b ≠ 0) : (npDiv a b).nonzero = true ↔ a ≠ 0 := by
  rw [npDiv_of_ne a b hb]
  simp only [NpVal.nonzero, decide_eq_true_eq]
  constructor
  · intro h ha
    exact h (by rw [ha, zero_div])
  · intro ha
    exact div_ne_zero ha hb

theorem quantile_value_nonneg (gb : GraphBuilder) (batch : List (List ℚ))
    (hs0 : 0 ≤ gb.sparsity) (hs1 : gb.sparsity ≤ 1)
    (hd : ∀ u v, (gb.distance_function u v).Nonneg) :
    0 ≤ gb.quantile_value batch := by
  unfold GraphBuilder.quantile_value
  exact np_quantile_nonneg _ _ (by linarith) (by linarith)
    (scores_flatten_nonneg gb batch hd)

theorem quantile_lt_list_max (gb : GraphBuilder) (batch : List (List ℚ))
    (hex : ∃ x ∈ (gb.scores_matrix batch).flatten, gb.quantile_value batch < x) :
    gb.quantile_value batch < list_max (gb.thresholded batch).flatten := by
  obtain ⟨x, hx, hqx⟩ := hex
  have hxT : x ∈ (gb.thresholded batch).flatten := by
    rw [thresholded_flatten]
    exact List.mem_map.mpr ⟨x, hx, by rw [if_pos hqx]⟩
  exact lt_of_lt_of_le hqx (le_list_max _ x hxT)

theorem list_max_thresholded_pos (gb : GraphBuilder) (batch : List (List ℚ))
    (hs0 : 0 ≤ gb.sparsity) (hs1 : gb.sparsity ≤ 1)
    (hd : ∀ u v, (gb.distance_function u v).Nonneg)
    (hex : ∃ x ∈ (gb.scores_matrix batch).flatten, gb.quantile_value batch < x) :
    0 < list_max (gb.thresholded batch).flatten :=
  lt_of_le_of_lt (quantile_value_nonneg gb batch hs0 hs1 hd)
    (quantile_lt_list_max gb batch hex)

theorem mem_edges_iff (gb : GraphBuilder) (batch : List (List ℚ))
    (hs0 : 0 ≤ gb.sparsity) (hs1 : gb.sparsity ≤ 1)
    (hd : ∀ u v, (gb.distance_function u v).Nonneg)
    (hex : ∃ x ∈ (gb.scores_matrix batch).flatten, gb.quantile_value batch < x) :
    ∀ i j, ((i, j) ∈ (gb.compute_edges_matrices batch).1 ↔
      (i < batch.length ∧ j < batch.length ∧
        gb.quantile_value batch < ((gb.scores_matrix batch).getD i []).getD j 0)) := by
  intro i j
  have hq0 : 0 ≤ gb.quantile_value batch := quantile_value_nonneg gb batch hs0 hs1 hd
  have hmxpos : 0 < list_max (gb.thresholded batch).flatten :=
    list_max_thresholded_pos gb batch hs0 hs1 hd hex
  unfold GraphBuilder.compute_edges_matrices
  rw [dense_to_sparse_fst_mem, normalized_length]
  constructor
  · rintro ⟨hi, hj, hnz⟩
    rw [normalized_row_length gb batch i hi] at hj
    refine ⟨hi, hj, ?_⟩
    rw [normalized_entry gb batch i j hi hj,
      npDiv_nonzero_iff _ _ (ne_of_gt hmxpos)] at hnz
    rw [thresholded_entry gb batch i j hi hj] at hnz
    by_contra hq
    rw [if_neg hq] at hnz
    exact hnz rfl
  · rintro ⟨hi, hj, hq⟩
    refine ⟨hi, by rw [normalized_row_length gb batch i hi]; exact hj, ?_⟩
    rw [normalized_entry gb batch i j hi hj,
      npDiv_nonzero_iff _ _ (ne_of_gt hmxpos),
      thresholded_entry gb batch i j hi hj, if_pos hq]
    exact ne_of_gt (lt_of_le_of_lt hq0 hq)

theorem edges_count_eq (gb : GraphBuilder) (batch : List (List ℚ))
    (hs0 : 0 ≤ gb.sparsity) (hs1 : gb.sparsity ≤ 1)
    (hd : ∀ u v, (gb.distance_function u v).Nonneg)
    (hex : ∃ x ∈ (gb.scores_matrix batch).flatten, gb.quantile_value batch < x) :
    (gb.compute_edges_matrices batch).1.length =
      (gb.scores_matrix batch).flatten.countP
        (fun x => decide (gb.quantile_value batch < x)) := by
  have hq0 : 0 ≤ gb.quantile_value batch := quantile_value_nonneg gb batch hs0 hs1 hd
  have hmxpos : 0 < list_max (gb.thresholded batch).flatten :=
    list_max_thresholded_pos gb batch hs0 hs1 hd hex
  have hmxpos2 : 0 < list_max ((gb.scores_matrix batch).flatten.map
      (fun s => if gb.quantile_value batch < s then s else 0)) := by
    rw [← thresholded_flatten]
    exact hmxpos
  unfold GraphBuilder.compute_edges_matrices
  rw [dense_to_sparse_fst_length, normalized_flatten, List.countP_map,
    thresholded_flatten, List.countP_map]
  apply List.countP_congr
  intro x _
  simp only [Function.comp]
  rw [npDiv_nonzero_iff _ _ (ne_of_gt hmxpos2)]
  constructor
  · intro hne
    by_contra hq
    have hq2 : ¬ gb.quantile_value batch < x := by simpa using hq
    rw [if_neg hq2] at hne
    exact hne rfl
  · intro hq
    have hq2 : gb.quantile_value batch < x := of_decide_eq_true hq
    rw [if_pos hq2]
    exact ne_of_gt (lt_of_le_of_lt hq0 hq2)

theorem getD_getD_mem_flatten {α : Type} (M : List (List α)) (d : α) (i j : ℕ)
    (hi : i < M.length) (hj : j < (M.getD i []).length) :
    (M.getD i []).getD j d ∈ M.flatten := by
  apply List.mem_flatten.mpr
  refine ⟨M.getD i [], ?_, ?_⟩
  · rw [List.getD_eq_getElem _ _ hi]
    exact List.getElem_mem _
  · rw [List.getD_eq_getElem _ _ hj]
    exact List.getElem_mem _

theorem scores_flatten_length (gb : GraphBuilder) (batch : List (List ℚ)) :
    (gb.scores_matrix batch).flatten.length = batch.length * batch.length := by
  rw [flatten_length_of_rows _ _ (scores_matrix_rows gb batch), scores_matrix_length]

/-! ### Concrete evaluations for witnesses and counterexamples -/

theorem gbA_dist_nonneg : ∀ u v, (gbA.distance_function u v).Nonneg := by
  intro u v
  show (absDist u v).Nonneg
  unfold absDist
  exact abs_nonneg _

theorem gbA_dist_zero_diag : ∀ v, gbA.distance_function v v = PyFloat.fin 0 := by
  intro v
  show absDist v v = PyFloat.fin 0
  unfold absDist
  rw [sub_self, abs_zero]

theorem gbA_scoresT_eval : gbA.scores_matrix batchT = [[0, 2], [2, 0]] := by
  norm_num [GraphBuilder.scores_matrix, GraphBuilder.vectorized_score, first_distance,
    cdist, index_select, gbA, absDist, score_function, int_trunc, batchT, List.getD]
  norm_num [abs_neg, abs_of_nonneg]

theorem gbA_quantT_eval : gbA.quantile_value batchT = 1 := by
  show np_quantile (gbA.scores_matrix batchT).flatten (1 - gbA.sparsity) = 1
  rw [gbA_scoresT_eval]
  norm_num [np_quantile, List.insertionSort, List.orderedInsert, gbA, List.getD]

theorem gbA_batchT_exceeds :
    ∃ x ∈ (gbA.scores_matrix batchT).flatten, gbA.quantile_value batchT < x := by
  rw [gbA_scoresT_eval, gbA_quantT_eval]
  refine ⟨2, ?_, by norm_num⟩
  simp

theorem gbA_scoresA_eval : gbA.scores_matrix batchA = [[0, 0], [0, 0]] := by
  norm_num [GraphBuilder.scores_matrix, GraphBuilder.vectorized_score, first_distance,
    cdist, index_select, gbA, absDist, score_function, int_trunc, batchA, List.getD]

theorem gbA_quantA_eval : gbA.quantile_value batchA = 0 := by
  show np_quantile (gbA.scores_matrix batchA).flatten (1 - gbA.sparsity) = 0
  rw [gbA_scoresA_eval]
  norm_num [np_quantile, List.insertionSort, List.orderedInsert, gbA, List.getD]

theorem gbA_threshA_eval : gbA.thresholded batchA = [[0, 0], [0, 0]] := by
  unfold GraphBuilder.thresholded
  rw [gbA_scoresA_eval, gbA_quantA_eval]
  norm_num

theorem gbA_edgesA_eval : gbA.compute_edges_matrices batchA =
    ([(0, 0), (0, 1), (1, 0), (1, 1)],
      [NpVal.nan, NpVal.nan, NpVal.nan, NpVal.nan]) := by
  have hN : gbA.normalized batchA =
      [[NpVal.nan, NpVal.nan], [NpVal.nan, NpVal.nan]] := by
    unfold GraphBuilder.normalized
    rw [gbA_threshA_eval]
    norm_num [list_max, npDiv, List.foldl]
  unfold GraphBuilder.compute_edges_matrices
  rw [hN]
  rfl

theorem spec_scores_gbA_batchA_eval :
    (cdist gbA.distance_function (index_select batchA gbA.params_indeces)).map
      (List.map spec_score) = [[0, 1/2], [1/2, 0]] := by
  norm_num [cdist, index_select, gbA, absDist, spec_score, batchA, List.getD,
    fin_ne_inf]

theorem spec_edges_gbA_batchA_eval :
    spec_edges gbA batchA = ([(0, 1), (1, 0)], [NpVal.num 1, NpVal.num 1]) := by
  have hq : np_quantile ([[(0 : ℚ), 1/2], [1/2, 0]]).flatten (1 - gbA.sparsity) = 1/4 := by
    norm_num [np_quantile, List.insertionSort, List.orderedInsert, gbA, List.getD]
  have hz : spec_zero_out (1/4) [[(0 : ℚ), 1/2], [1/2, 0]] = [[0, 1/2], [1/2, 0]] := by
    norm_num [spec_zero_out]
  have hm : list_max ([[(0 : ℚ), 1/2], [1/2, 0]]).flatten = 1/2 := by
    norm_num [list_max, List.foldl]
  have hdiv : ([[(0 : ℚ), 1/2], [1/2, 0]]).map (List.map (fun s => npDiv s (1/2))) =
      [[NpVal.num 0, NpVal.num 1], [NpVal.num 1, NpVal.num 0]] := by
    norm_num [npDiv]
  simp only [spec_edges]
  rw [spec_scores_gbA_batchA_eval, hq, hz, hm, hdiv]
  rfl

/-- Claim C2, counterexample to the claim as stated: on the batch [[0], [2]]
with the absolute-difference distance, the first distance is 0, so
`np.vectorize` infers an int64 dtype and the computed score matrix is
[[0, 0], [0, 0]] instead of the exact transform [[0, 1/2], [1/2, 0]]; the
resulting edges (all four pairs, `nan` weights) differ from the output of the
pipeline the claim describes (edges (0,1) and (1,0) with weight 1). -/
theorem C2_counterexample :
    gbA.scores_matrix batchA ≠
      (cdist gbA.distance_function (index_select batchA gbA.params_indeces)).map
        (List.map spec_score) ∧
    gbA.compute_edges_matrices batchA ≠ spec_edges gbA batchA := by
  constructor
  · rw [gbA_scoresA_eval, spec_scores_gbA_batchA_eval]
    intro h
    have h2 := congrArg (fun m : List (List ℚ) => (m.getD 0 []).getD 1 0) h
    norm_num [List.getD] at h2
  · rw [gbA_edgesA_eval, spec_edges_gbA_batchA_eval]
    intro h
    have h2 := congrArg (fun p : List (ℕ × ℕ) × List NpVal => p.1.length) h
    norm_num at h2

/-- Claim C3, amended (corrected): under a nonnegative distance function and
provided at least one score strictly exceeds the `(1 - sparsity)`-quantile of
the score matrix (so that the normalising maximum is nonzero), the edges are
exactly the ordered pairs whose score strictly exceeds the quantile, and at
most `sparsity * n^2 + 1` of the `n^2` entries survive as edges. -/
theorem C3_amended (gb : GraphBuilder) (batch : List (List ℚ))
    (hb : batch ≠ []) (hs0 : 0 ≤ gb.sparsity) (hs1 : gb.sparsity ≤ 1)
    (hd : ∀ u v, (gb.distance_function u v).Nonneg)
    (hex : ∃ x ∈ (gb.scores_matrix batch).flatten, gb.quantile_value batch < x) :
    (∀ i j, ((i, j) ∈ (gb.compute_edges_matrices batch).1 ↔
      (i < batch.length ∧ j < batch.length ∧
        gb.quantile_value batch < ((gb.scores_matrix batch).getD i []).getD j 0))) ∧
    (((gb.compute_edges_matrices batch).1.length : ℚ) ≤
      gb.sparsity * (batch.length : ℚ) ^ 2 + 1) := by
  constructor
  · exact mem_edges_iff gb batch hs0 hs1 hd hex
  · rw [edges_count_eq gb batch hs0 hs1 hd hex]
    have hflatlen : (gb.scores_matrix batch).flatten.length = batch.length * batch.length :=
      scores_flatten_length gb batch
    have hnpos : 0 < batch.length := List.length_pos.mpr hb
    have hflatne : (gb.scores_matrix batch).flatten ≠ [] := by
      apply List.ne_nil_of_length_pos
      rw [hflatlen]
      exact Nat.mul_pos hnpos hnpos
    have hcount := countP_gt_np_quantile (gb.scores_matrix batch).flatten gb.sparsity
      hs0 hs1 hflatne
    have hqv : gb.quantile_value batch =
        np_quantile (gb.scores_matrix batch).flatten (1 - gb.sparsity) := rfl
    rw [hqv]
    rw [hflatlen] at hcount
    have hcast : ((batch.length * batch.length : ℕ) : ℚ) = (batch.length : ℚ) ^ 2 := by
      push_cast
      ring
    rw [hcast] at hcount
    exact hcount

theorem C3_witness :
    (∀ i j, ((i, j) ∈ (gbA.compute_edges_matrices batchT).1 ↔
      (i < batchT.length ∧ j < batchT.length ∧
        gbA.quantile_value batchT < ((gbA.scores_matrix batchT).getD i []).getD j 0))) ∧
    (((gbA.compute_edges_matrices batchT).1.length : ℚ) ≤
      gbA.sparsity * (batchT.length : ℚ) ^ 2 + 1) :=
  C3_amended gbA batchT (by simp [batchT]) (by norm_num [gbA])
    (by norm_num [gbA]) gbA_dist_nonneg gbA_batchT_exceeds

/-- Claim C4, amended (corrected): under a nonnegative distance function and
provided at least one score strictly exceeds the quantile, every returned edge
weight is an ordinary number in the half-open interval `(0, 1]` and the weight
`1` is attained. -/
theorem C4_amended (gb : GraphBuilder) (batch : List (List ℚ))
    (hb : batch ≠ []) (hs0 : 0 ≤ gb.sparsity) (hs1 : gb.sparsity ≤ 1)
    (hd : ∀ u v, (gb.distance_function u v).Nonneg)
    (hex : ∃ x ∈ (gb.scores_matrix batch).flatten, gb.quantile_value batch < x) :
    (∀ w ∈ (gb.compute_edges_matrices batch).2,
      ∃ r : ℚ, w = NpVal.num r ∧ 0 < r ∧ r ≤ 1) ∧
    NpVal.num 1 ∈ (gb.compute_edges_matrices batch).2 := by
  have hq0 : 0 ≤ gb.quantile_value batch := quantile_value_nonneg gb batch hs0 hs1 hd
  have hmxpos : 0 < list_max (gb.thresholded batch).flatten :=
    list_max_thresholded_pos gb batch hs0 hs1 hd hex
  constructor
  · intro w hw
    unfold GraphBuilder.compute_edges_matrices at hw
    rw [dense_to_sparse_snd_mem] at hw
    obtain ⟨i, j, hi, hj, hwv, hnz⟩ := hw
    rw [normalized_length] at hi
    rw [normalized_row_length gb batch i hi] at hj
    rw [normalized_entry gb batch i j hi hj,
      npDiv_of_ne _ _ (ne_of_gt hmxpos)] at hwv
    have htmem : ((gb.thresholded batch).getD i []).getD j 0 ∈
        (gb.thresholded batch).flatten :=
      getD_getD_mem_flatten _ _ i j (by rw [thresholded_length]; exact hi)
        (by rw [thresholded_row_length gb batch i hi]; exact hj)
    have htle : ((gb.thresholded batch).getD i []).getD j 0 ≤
        list_max (gb.thresholded batch).flatten := le_list_max _ _ htmem
    have hwnz : (NpVal.num (((gb.thresholded batch).getD i []).getD j 0 /
        list_max (gb.thresholded batch).flatten)).nonzero = true := by
      rw [hwv]
      exact hnz
    rw [← npDiv_of_ne _ _ (ne_of_gt hmxpos),
      npDiv_nonzero_iff _ _ (ne_of_gt hmxpos)] at hwnz
    have htpos : 0 < ((gb.thresholded batch).getD i []).getD j 0 := by
      rw [thresholded_entry gb batch i j hi hj] at hwnz ⊢
      by_cases hq : gb.quantile_value batch <
          ((gb.scores_matrix batch).getD i []).getD j 0
      · rw [if_pos hq]
        exact lt_of_le_of_lt hq0 hq
      · rw [if_neg hq] at hwnz
        exact absurd rfl hwnz
    refine ⟨((gb.thresholded batch).getD i []).getD j 0 /
        list_max (gb.thresholded batch).flatten, hwv.symm,
      div_pos htpos hmxpos, (div_le_one hmxpos).mpr htle⟩
  · have hnpos : 0 < batch.length := List.length_pos.mpr hb
    have hTflatne : (gb.thresholded batch).flatten ≠ [] := by
      apply List.ne_nil_of_length_pos
      have hTlen : (gb.thresholded batch).flatten.length =
          (gb.scores_matrix batch).flatten.length := by
        rw [thresholded_flatten, List.length_map]
      rw [hTlen, scores_flatten_length]
      exact Nat.mul_pos hnpos hnpos
    have hmxmem := list_max_mem _ hTflatne
    obtain ⟨row, hrow, hmem⟩ := List.mem_flatten.mp hmxmem
    obtain ⟨i, hi, hrowi⟩ := List.mem_iff_getElem.mp hrow
    obtain ⟨j, hj, hji⟩ := List.mem_iff_getElem.mp hmem
    have hiB : i < batch.length := by
      rw [← thresholded_length gb batch]
      exact hi
    have hrowD : (gb.thresholded batch).getD i [] = row := by
      rw [List.getD_eq_getElem _ _ hi]
      exact hrowi
    have hjB : j < batch.length := by
      rw [← thresholded_row_length gb batch i hiB, hrowD]
      exact hj
    have hentry : ((gb.thresholded batch).getD i []).getD j 0 =
        list_max (gb.thresholded batch).flatten := by
      rw [hrowD, List.getD_eq_getElem _ _ hj]
      exact hji
    unfold GraphBuilder.compute_edges_matrices
    rw [dense_to_sparse_snd_mem]
    refine ⟨i, j, by rw [normalized_length]; exact hiB,
      by rw [normalized_row_length gb batch i hiB]; exact hjB, ?_, by simp [NpVal.nonzero]⟩
    rw [normalized_entry gb batch i j hiB hjB, npDiv_of_ne _ _ (ne_of_gt hmxpos),
      hentry, div_self (ne_of_gt hmxpos)]

theorem C4_witness :
    (∀ w ∈ (gbA.compute_edges_matrices batchT).2,
      ∃ r : ℚ, w = NpVal.num r ∧ 0 < r ∧ r ≤ 1) ∧
    NpVal.num 1 ∈ (gbA.compute_edges_matrices batchT).2 :=
  C4_amended gbA batchT (by simp [batchT]) (by norm_num [gbA])
    (by norm_num [gbA]) gbA_dist_nonneg gbA_batchT_exceeds

/-- Claim C8, amended (corrected): for a nonnegative distance function
vanishing on identical rows, and provided at least one score strictly exceeds
the quantile, the edge index contains no self-loop `(i, i)`. -/
theorem C8_amended (gb : GraphBuilder) (batch : List (List ℚ))
    (hb : batch ≠ []) (hs0 : 0 ≤ gb.sparsity) (hs1 : gb.sparsity ≤ 1)
    (hd : ∀ u v, (gb.distance_function u v).Nonneg)
    (hdz : ∀ v, gb.distance_function v v = PyFloat.fin 0)
    (hex : ∃ x ∈ (gb.scores_matrix batch).flatten, gb.quantile_value batch < x) :
    ∀ i, (i, i) ∉ (gb.compute_edges_matrices batch).1 := by
  intro i hmem
  rw [mem_edges_iff gb batch hs0 hs1 hd hex i i] at hmem
  obtain ⟨hi, _, hq⟩ := hmem
  rw [scores_matrix_entry gb batch i i hi hi, hdz,
    vectorized_score_fin_zero gb batch] at hq
  exact absurd hq (not_lt.mpr (quantile_value_nonneg gb batch hs0 hs1 hd))

theorem C8_witness : (0, 0) ∉ (gbA.compute_edges_matrices batchT).1 :=
  C8_amended gbA batchT (by simp [batchT]) (by norm_num [gbA]) (by norm_num [gbA])
    gbA_dist_nonneg gbA_dist_zero_diag gbA_batchT_exceeds 0

/-! ### Evaluations on the degenerate batches -/

theorem gbA_scoresBad_eval : gbA.scores_matrix batchBad = [[0, 0], [0, 0]] := by
  norm_num [GraphBuilder.scores_matrix, GraphBuilder.vectorized_score, first_distance,
    cdist, index_select, gbA, absDist, score_function, int_trunc, batchBad, List.getD]

theorem gbA_quantBad_eval : gbA.quantile_value batchBad = 0 := by
  show np_quantile (gbA.scores_matrix batchBad).flatten (1 - gbA.sparsity) = 0
  rw [gbA_scoresBad_eval]
  norm_num [np_quantile, List.insertionSort, List.orderedInsert, gbA, List.getD]

theorem gbA_threshBad_eval : gbA.thresholded batchBad = [[0, 0], [0, 0]] := by
  unfold GraphBuilder.thresholded
  rw [gbA_scoresBad_eval, gbA_quantBad_eval]
  norm_num

theorem gbA_edgesBad_eval : gbA.compute_edges_matrices batchBad =
    ([(0, 0), (0, 1), (1, 0), (1, 1)],
      [NpVal.nan, NpVal.nan, NpVal.nan, NpVal.nan]) := by
  have hN : gbA.normalized batchBad =
      [[NpVal.nan, NpVal.nan], [NpVal.nan, NpVal.nan]] := by
    unfold GraphBuilder.normalized
    rw [gbA_threshBad_eval]
    norm_num [list_max, npDiv, List.foldl]
  unfold GraphBuilder.compute_edges_matrices
  rw [hN]
  rfl

theorem gbNeg_scores_eval :
    gbNeg.scores_matrix batchNeg = [[-1, -(1/2)], [-(1/2), -1]] := by
  norm_num [GraphBuilder.scores_matrix, GraphBuilder.vectorized_score, first_distance,
    cdist, index_select, gbNeg, negDist, score_function, batchNeg, List.getD,
    fin_ne_inf]

theorem gbNeg_quant_eval : gbNeg.quantile_value batchNeg = -(3/4) := by
  show np_quantile (gbNeg.scores_matrix batchNeg).flatten (1 - gbNeg.sparsity) = -(3/4)
  rw [gbNeg_scores_eval]
  norm_num [np_quantile, List.insertionSort, List.orderedInsert, gbNeg, List.getD]

theorem gbNeg_thresh_eval :
    gbNeg.thresholded batchNeg = [[0, -(1/2)], [-(1/2), 0]] := by
  unfold GraphBuilder.thresholded
  rw [gbNeg_scores_eval, gbNeg_quant_eval]
  norm_num

theorem gbNeg_edges_eval : gbNeg.compute_edges_matrices batchNeg =
    ([(0, 0), (0, 1), (1, 0), (1, 1)],
      [NpVal.nan, NpVal.negInf, NpVal.negInf, NpVal.nan]) := by
  have hN : gbNeg.normalized batchNeg =
      [[NpVal.nan, NpVal.negInf], [NpVal.negInf, NpVal.nan]] := by
    unfold GraphBuilder.normalized
    rw [gbNeg_thresh_eval]
    norm_num [list_max, npDiv, List.foldl]
  unfold GraphBuilder.compute_edges_matrices
  rw [hN]
  rfl

/-- Claim C3, counterexample to the claim as stated: on a batch of two
identical rows every score equals the quantile, nothing is zeroed strictly
above the threshold, the normalising maximum is `0`, the whole matrix becomes
`nan`, and all `4 = n^2` pairs are returned as edges, exceeding the bound
`sparsity * n^2 + 1 = 3`; the pair `(0, 0)` is an edge although its score does
not exceed the quantile. -/
theorem C3_counterexample :
    (gbA.compute_edges_matrices batchBad).1.length = 4 ∧
    ¬ (((gbA.compute_edges_matrices batchBad).1.length : ℚ) ≤
      gbA.sparsity * ((batchBad.length : ℚ)) ^ 2 + 1) ∧
    (0, 0) ∈ (gbA.compute_edges_matrices batchBad).1 ∧
    ¬ gbA.quantile_value batchBad <
      ((gbA.scores_matrix batchBad).getD 0 []).getD 0 0 := by
  refine ⟨?_, ?_, ?_, ?_⟩
  · rw [gbA_edgesBad_eval]
    rfl
  · rw [gbA_edgesBad_eval]
    norm_num [gbA, batchBad]
  · rw [gbA_edgesBad_eval]
    simp
  · rw [gbA_quantBad_eval, gbA_scoresBad_eval]
    norm_num [List.getD]

/-- Claim C4, counterexample to the claim as stated: with a distance function
taking strictly negative values (nonzero on the diagonal, so no dtype
truncation occurs), a batch exists in which a computed score strictly exceeds
the quantile (the hypothesis of the claim) yet the returned edge weights are
`nan` and `-inf`, not numbers in `(0, 1]`. -/
theorem C4_counterexample :
    (∃ x ∈ (gbNeg.scores_matrix batchNeg).flatten, gbNeg.quantile_value batchNeg < x) ∧
    NpVal.nan ∈ (gbNeg.compute_edges_matrices batchNeg).2 ∧
    (∀ r : ℚ, NpVal.nan ≠ NpVal.num r) := by
  refine ⟨?_, ?_, ?_⟩
  · rw [gbNeg_scores_eval, gbNeg_quant_eval]
    refine ⟨-(1/2), ?_, by norm_num⟩
    simp
  · rw [gbNeg_edges_eval]
    simp
  · intro r h
    cases h

/-- Claim C8, counterexample to the claim as stated: the absolute-difference
distance is nonnegative and vanishes on identical rows, yet on a batch of two
identical rows the self-loop `(0, 0)` is returned as an edge (all entries
become `nan` after division by the zero maximum). -/
theorem C8_counterexample :
    (∀ u v, (gbA.distance_function u v).Nonneg) ∧
    (∀ v, gbA.distance_function v v = PyFloat.fin 0) ∧
    (0, 0) ∈ (gbA.compute_edges_matrices batchBad).1 := by
  refine ⟨gbA_dist_nonneg, gbA_dist_zero_diag, ?_⟩
  rw [gbA_edgesBad_eval]
  simp

theorem C9_witness :
    gbA.compute_edges_matrices batchW1 = gbA.compute_edges_matrices batchW2 := by
  apply C9_edges_depend_only_on_selected_columns gbA batchW1 batchW2 rfl
  intro i hi j hj
  have hj0 : j = 0 := by simpa [gbA] using hj
  subst hj0
  have hi2 : i < 2 := by simpa [batchW1] using hi
  interval_cases i <;> rfl
